import Mathlib

/-!
Verification of the `paper2note` pipeline (`src/paper2note/paper2note.py`).

The development shallowly embeds the module's three functions —
`input_validate_path`, `clean_metadata` and `paper2note` — as executable
Lean definitions, together with the fragments of Python semantics they
rely on: dictionary lookup, boolean truthiness (`x or default`),
`str.format(**data)` substitution, `pathlib` suffix/stem/join, and a small
model of the filesystem as a finite map from paths to file contents plus a
set of directories.  The external extractor (`pdf2bib`) is modelled as an
arbitrary pure function from the bytes of the PDF to an extraction result.
-/

namespace Paper2Note

/-- A Python scalar value, as it occurs inside metadata lists.  List values
in the metadata are modelled one level deep (lists of scalars), which covers
every shape the metadata dictionary takes in this pipeline. -/
inductive PyScal where
  | none
  | str (s : String)
  | int (n : Int)
deriving DecidableEq, Repr

/-- A Python value as stored in the metadata dictionaries: `None`, a string,
an integer, or a (flat) list. -/
inductive PyVal where
  | none
  | str (s : String)
  | int (n : Int)
  | list (l : List PyScal)
deriving DecidableEq, Repr

/-- Python truthiness: `None`, `""`, `0` and `[]` are falsy. -/
def PyVal.truthy : PyVal → Bool
  | .none => false
  | .str s => !(s = "")
  | .int n => !(n = 0)
  | .list l => !l.isEmpty

/-- `a or b` on Python values. -/
def pyOr (a b : PyVal) : PyVal := if a.truthy then a else b

/-- `dict.get(k)`: an absent key reads as `None`. -/
def oget (o : Option PyVal) : PyVal := o.getD .none

/-- Decimal digit characters, as produced by Python's `str` on integers. -/
def digitChar : Nat → Char
  | 0 => '0' | 1 => '1' | 2 => '2' | 3 => '3' | 4 => '4'
  | 5 => '5' | 6 => '6' | 7 => '7' | 8 => '8' | _ => '9'

/-- Big-endian decimal digit characters of `n` (empty for `0`); the first
argument is fuel making the recursion structural. -/
def natToStringAux : Nat → Nat → List Char
  | 0, _ => []
  | fuel + 1, n => if n = 0 then [] else natToStringAux fuel (n / 10) ++ [digitChar (n % 10)]

/-- Python's `str` on a natural number: decimal notation. -/
def natToString (n : Nat) : String :=
  if n = 0 then "0" else ⟨natToStringAux n n⟩

/-- Python's `str` on an integer. -/
def intToString (n : Int) : String :=
  if n < 0 then "-" ++ natToString n.natAbs else natToString n.natAbs

/-- `str(v)` for a scalar, as used by list rendering (`repr`-style for
strings, without escape handling, which never arises here). -/
def PyScal.reprStr : PyScal → String
  | .none => "None"
  | .str s => "\x27" ++ s ++ "\x27"
  | .int n => intToString n

/-- `str(v)`: the string a Python value substitutes as in `str.format`. -/
def PyVal.toStr : PyVal → String
  | .none => "None"
  | .str s => s
  | .int n => intToString n
  | .list l => "[" ++ String.intercalate ", " (l.map PyScal.reprStr) ++ "]"

/-- Python dictionary lookup on an association list (first match wins). -/
def dictGet {κ α : Type} [DecidableEq κ] (k : κ) : List (κ × α) → Option α
  | [] => Option.none
  | e :: rest => if e.1 = k then some e.2 else dictGet k rest

@[simp] theorem dictGet_nil {κ α : Type} [DecidableEq κ] (k : κ) :
    dictGet k ([] : List (κ × α)) = Option.none := rfl

@[simp] theorem dictGet_cons {κ α : Type} [DecidableEq κ] (k : κ) (e : κ × α)
    (rest : List (κ × α)) :
    dictGet k (e :: rest) = if e.1 = k then some e.2 else dictGet k rest := rfl

theorem dictGet_append_left {κ α : Type} [DecidableEq κ] (k : κ)
    (l₁ l₂ : List (κ × α)) (h : (dictGet k l₁).isSome) :
    dictGet k (l₁ ++ l₂) = dictGet k l₁ := by
  induction l₁ with
  | nil => simp [dictGet] at h
  | cons e rest ih =>
    by_cases he : e.1 = k
    · simp [dictGet, he]
    · simp only [dictGet, he, if_false, List.cons_append] at h ⊢
      exact ih h

theorem dictGet_append_right {κ α : Type} [DecidableEq κ] (k : κ)
    (l₁ l₂ : List (κ × α)) (h : dictGet k l₁ = Option.none) :
    dictGet k (l₁ ++ l₂) = dictGet k l₂ := by
  induction l₁ with
  | nil => simp
  | cons e rest ih =>
    by_cases he : e.1 = k
    · simp [dictGet, he] at h
    · simp only [dictGet, he, if_false, List.cons_append] at h ⊢
      exact ih h

/- ### Decimal rendering: correctness and injectivity -/

theorem natToStringAux_eq_digits (fuel : Nat) :
    ∀ n : Nat, n ≤ fuel → natToStringAux fuel n = ((Nat.digits 10 n).map digitChar).reverse := by
  induction fuel with
  | zero =>
    intro n hn
    interval_cases n
    simp [natToStringAux]
  | succ f ih =>
    intro n hn
    by_cases h0 : n = 0
    · simp [natToStringAux, h0]
    · have hpos : 0 < n := Nat.pos_of_ne_zero h0
      rw [natToStringAux, if_neg h0, Nat.digits_def' (by norm_num : (1:Nat) < 10) hpos]
      have hle : n / 10 ≤ f := by
        have := Nat.div_lt_self hpos (by norm_num : (1:Nat) < 10)
        omega
      rw [ih (n / 10) hle]
      simp

theorem digitChar_lt_injOn : ∀ d₁ < 10, ∀ d₂ < 10, digitChar d₁ = digitChar d₂ → d₁ = d₂ := by
  decide

theorem map_digitChar_inj :
    ∀ l₁ l₂ : List Nat, (∀ d ∈ l₁, d < 10) → (∀ d ∈ l₂, d < 10) →
      l₁.map digitChar = l₂.map digitChar → l₁ = l₂ := by
  intro l₁
  induction l₁ with
  | nil => intro l₂ _ _ h; cases l₂ <;> simp_all
  | cons a rest ih =>
    intro l₂ h₁ h₂ h
    cases l₂ with
    | nil => simp at h
    | cons b rest₂ =>
      simp only [List.map_cons, List.cons.injEq] at h
      have ha : a < 10 := h₁ a (by simp)
      have hb : b < 10 := h₂ b (by simp)
      have hab : a = b := digitChar_lt_injOn a ha b hb h.1
      have := ih rest₂ (fun d hd => h₁ d (by simp [hd])) (fun d hd => h₂ d (by simp [hd])) h.2
      simp [hab, this]

theorem digits_all_lt (n : Nat) : ∀ d ∈ Nat.digits 10 n, d < 10 :=
  fun _ hd => Nat.digits_lt_base (by norm_num) hd

theorem natToString_zero : natToString 0 = "0" := rfl

theorem natToString_pos_data (n : Nat) (hn : n ≠ 0) :
    (natToString n).data = ((Nat.digits 10 n).map digitChar).reverse := by
  unfold natToString
  rw [if_neg hn]
  exact natToStringAux_eq_digits n n le_rfl

theorem natToString_ne_empty (n : Nat) : natToString n ≠ "" := by
  by_cases hn : n = 0
  · subst hn; decide
  · intro h
    have hd := congrArg String.data h
    rw [natToString_pos_data n hn] at hd
    have hnil : Nat.digits 10 n = [] := by
      have hlen := congrArg List.length hd
      simpa using hlen
    exact (Nat.digits_ne_nil_iff_ne_zero.mpr hn) hnil

theorem natToString_eq_zero_str (n : Nat) (h : natToString n = "0") : n = 0 := by
  by_contra hn
  have hd := congrArg String.data h
  rw [natToString_pos_data n hn] at hd
  have hz : "0".data = ['0'] := rfl
  rw [hz] at hd
  have hrev : (Nat.digits 10 n).map digitChar = ['0'] := by
    have := congrArg List.reverse hd
    simpa using this
  have hdig : Nat.digits 10 n = [0] := by
    cases hds : Nat.digits 10 n with
    | nil => rw [hds] at hrev; simp at hrev
    | cons a tl =>
      rw [hds] at hrev
      cases tl with
      | nil =>
        simp at hrev
        have ha : a < 10 := digits_all_lt n a (by rw [hds]; simp)
        have : a = 0 := digitChar_lt_injOn a ha 0 (by norm_num) hrev
        rw [this]
      | cons b tl₂ => simp at hrev
  have hof := Nat.ofDigits_digits 10 n
  rw [hdig] at hof
  simp [Nat.ofDigits] at hof
  exact hn hof.symm

theorem natToString_injective : Function.Injective natToString := by
  intro m n h
  by_cases hm : m = 0 <;> by_cases hn : n = 0
  · omega
  · subst hm
    rw [natToString_zero] at h
    exact absurd (natToString_eq_zero_str n h.symm) hn
  · subst hn
    rw [natToString_zero] at h
    exact absurd (natToString_eq_zero_str m h) hm
  · have hd := congrArg String.data h
    rw [natToString_pos_data m hm, natToString_pos_data n hn] at hd
    have := List.reverse_injective hd
    have := map_digitChar_inj _ _ (digits_all_lt m) (digits_all_lt n) this
    exact Nat.digits_inj_iff.mp this

/-- Every character of a rendered natural number is a decimal digit. -/
theorem natToString_mem_digit (n : Nat) (c : Char) (hc : c ∈ (natToString n).data) :
    ∃ d, d < 10 ∧ digitChar d = c := by
  by_cases hn : n = 0
  · subst hn
    simp [natToString_zero] at hc
    rcases hc with rfl
    exact ⟨0, by norm_num, rfl⟩
  · rw [natToString_pos_data n hn] at hc
    rw [List.mem_reverse] at hc
    obtain ⟨d, hdmem, hdeq⟩ := List.mem_map.mp hc
    exact ⟨d, digits_all_lt n d hdmem, hdeq⟩

/- ### Paths: the fragment of `pathlib` the module uses -/

/-- A `pathlib.Path`: an absolute/relative flag and the list of components. -/
structure PyPath where
  absolute : Bool
  parts : List String
deriving DecidableEq, Repr

/-- `p / q`: `pathlib` join; an absolute right operand replaces the left. -/
def pathJoin (p q : PyPath) : PyPath :=
  if q.absolute then q else ⟨p.absolute, p.parts ++ q.parts⟩

/-- `p.name`: the final component (empty for a bare root). -/
def PyPath.name (p : PyPath) : String := p.parts.getLast?.getD ""

/-- `p.parent`: the path with the final component removed. -/
def PyPath.parent (p : PyPath) : PyPath := ⟨p.absolute, p.parts.dropLast⟩

/-- `parent / s` for a single new component `s`. -/
def pathChild (p : PyPath) (s : String) : PyPath := ⟨p.absolute, p.parts ++ [s]⟩

/-- `Path.suffix` as implemented by CPython: the substring of `name` from its
last dot, provided that dot is neither the first nor the last character;
otherwise the empty string. -/
def pySuffix (name : String) : String :=
  if (name.data.reverse.takeWhile (fun c => !(c = '.'))).length ≠ 0
      ∧ (name.data.reverse.takeWhile (fun c => !(c = '.'))).length + 1 < name.data.length
  then ⟨'.' :: (name.data.reverse.takeWhile (fun c => !(c = '.'))).reverse⟩ else ""

/-- `Path.stem` as implemented by CPython: `name` with `suffix` removed. -/
def pyStem (name : String) : String :=
  if (name.data.reverse.takeWhile (fun c => !(c = '.'))).length ≠ 0
      ∧ (name.data.reverse.takeWhile (fun c => !(c = '.'))).length + 1 < name.data.length
  then ⟨name.data.take (name.data.length
    - ((name.data.reverse.takeWhile (fun c => !(c = '.'))).length + 1))⟩
  else name

/- ### Errors raised by the module -/

/-- The exceptions the pipeline can raise: `FileNotFoundError` (from
`input_validate_path` or a template read), `ValueError` for a non-`.pdf`
input, `KeyError` from a dictionary lookup or an unresolved `{placeholder}`,
and `ValueError` from a malformed format string. -/
inductive Err where
  | notFound (p : PyPath)
  | invalidInput
  | keyError (k : String)
  | formatError
deriving DecidableEq, Repr

/-- Equality of `Except` results is decidable (needed to evaluate the model
on concrete inputs). -/
instance {e a : Type} [DecidableEq e] [DecidableEq a] : DecidableEq (Except e a) := by
  intro x y
  cases x <;> cases y
  case error.error u v =>
    exact if h : u = v then .isTrue (by rw [h]) else .isFalse (by intro hh; cases hh; exact h rfl)
  case error.ok u v => exact .isFalse (fun hh => Except.noConfusion hh)
  case ok.error u v => exact .isFalse (fun hh => Except.noConfusion hh)
  case ok.ok u v =>
    exact if h : u = v then .isTrue (by rw [h]) else .isFalse (by intro hh; cases hh; exact h rfl)

/- ### The raw extraction result (input of `clean_metadata`) -/

/-- One element of the raw `author` list: a dict which may or may not carry
the `given` and `family` keys. -/
structure RawAuthor where
  given : Option String
  family : Option String
deriving DecidableEq, Repr

/-- The keys of `extraction_result["metadata"]` that `clean_metadata` reads;
`Option.none` models an absent key. -/
structure Metadata where
  title : Option PyVal
  author : Option (List RawAuthor)
  year : Option PyVal
  month : Option PyVal
  day : Option PyVal
  journal : Option PyVal
  ejournal : Option PyVal
  doi : Option PyVal
  url : Option PyVal
  volume : Option PyVal
  page : Option PyVal
  ENTRYTYPE : Option PyVal
deriving DecidableEq, Repr

/-- `extraction_result["validation_data"]`. -/
structure ValidationData where
  summary : Option PyVal
deriving DecidableEq, Repr

/-- The top-level extraction result returned by `pdf2bib.pdf2bib`. -/
structure ExtractionResult where
  metadata : Option Metadata
  validation_data : Option ValidationData
  bibtex : Option PyVal
deriving DecidableEq, Repr

/- ### `clean_metadata` -/

/-- `f"{author['given']} {author['family']}"`: fails with `KeyError` when a
key is absent (`given` is read first). -/
def renderAuthor (a : RawAuthor) : Except Err String :=
  match a.given with
  | Option.none => .error (.keyError "given")
  | some g =>
    match a.family with
    | Option.none => .error (.keyError "family")
    | some f => .ok (g ++ " " ++ f)

/-- The list comprehension over the raw author list (left to right, first
`KeyError` wins). -/
def renderAuthors : List RawAuthor → Except Err (List String)
  | [] => .ok []
  | a :: rest =>
    match renderAuthor a with
    | .error e => .error e
    | .ok r =>
      match renderAuthors rest with
      | .error e => .error e
      | .ok rs => .ok (r :: rs)

/-- The thirteen fixed entries of the `cleaned_metadata` dict literal, in
source order. -/
def cleanBase (md : Metadata) (vd : ValidationData) (bib : Option PyVal)
    (authors_list : List String) : List (String × PyVal) :=
  [("title", md.title.getD (.str "<no title found>")),
   ("authors", if authors_list.isEmpty then PyVal.str "<no authors found>"
    else .str (String.intercalate ", " authors_list)),
   ("year", pyOr (oget md.year) (.str "????")),
   ("month", pyOr (oget md.month) (.str "??")),
   ("day", pyOr (oget md.day) (.str "??")),
   ("journal", pyOr (oget md.journal) (pyOr (oget md.ejournal) (.str "<no journal found>"))),
   ("doi", pyOr (oget md.doi) (.str "<no doi found>")),
   ("url", pyOr (oget md.url) (.str "<no url found>")),
   ("volume", pyOr (oget md.volume) (.str "<no volume found>")),
   ("page", pyOr (oget md.page) (.str "<no page found>")),
   ("type", pyOr (oget md.ENTRYTYPE) (.str "article")),
   ("abstract", pyOr (oget vd.summary) (.str "<no abstract found>")),
   ("bibtex", pyOr (oget bib) (.str "<no bibtex found>"))]

/-- The `for i, author in enumerate(authors_list)` loop: entries
`author_{i+1}` appended in order, starting at offset `i`. -/
def authorEntries (i : Nat) : List String → List (String × PyVal)
  | [] => []
  | r :: rest => ("author_" ++ natToString (i + 1), PyVal.str r) :: authorEntries (i + 1) rest

/-- `clean_metadata`: flatten and default the raw extraction result.
Dictionary accesses by subscript (`extraction_result["metadata"]`,
`author['given']`, …) raise `KeyError`; `.get` accesses default. -/
def clean_metadata (er : ExtractionResult) : Except Err (List (String × PyVal)) :=
  match er.metadata with
  | Option.none => .error (.keyError "metadata")
  | some md =>
    match renderAuthors (md.author.getD []) with
    | .error e => .error e
    | .ok authors_list =>
      match er.validation_data with
      | Option.none => .error (.keyError "validation_data")
      | some vd =>
        let withIdx := cleanBase md vd er.bibtex authors_list ++ authorEntries 0 authors_list
        match authors_list.getLast? with
        | Option.none => .ok withIdx
        | some lastA => .ok (withIdx ++ [("author_last", PyVal.str lastA)])

/- ### Key disjointness between the fixed entries and the author entries -/

theorem strData_append (s t : String) : (s ++ t).data = s.data ++ t.data := rfl

theorem strExt {s t : String} (h : s.data = t.data) : s = t := by
  cases s; cases t; exact congrArg String.mk h

theorem strData_ne_nil {t : String} (ht : t ≠ "") : t.data ≠ [] := by
  intro h
  exact ht (strExt (h.trans rfl))

/-- A string is never `"author_" ++ t` (with `t` nonempty) when it is at most
seven characters long or its second character is not `u`. -/
theorem ne_author_key (k : String) (t : String) (ht : t ≠ "")
    (hk : k.data.length ≤ 7 ∨ k.data[1]? ≠ some 'u') : k ≠ "author_" ++ t := by
  intro h
  have hd : k.data = "author_".data ++ t.data := by
    rw [h]; exact strData_append _ _
  have hlen : k.data.length = 7 + t.data.length := by
    have h7 : ("author_".data).length = 7 := rfl
    rw [hd, List.length_append, h7]
  have htpos : 0 < t.data.length :=
    List.length_pos.mpr (strData_ne_nil ht)
  rcases hk with hk | hk
  · omega
  · apply hk
    rw [hd]
    rw [List.getElem?_append_left (by simp)]
    rfl

/-- `"author_" ++ t` never collides with any of the thirteen fixed keys. -/
theorem cleanBase_dictGet_author (md : Metadata) (vd : ValidationData)
    (bib : Option PyVal) (al : List String) (t : String) (ht : t ≠ "") :
    dictGet ("author_" ++ t) (cleanBase md vd bib al) = Option.none := by
  have h₁ := ne_author_key "title" t ht (by left; decide)
  have h₂ := ne_author_key "authors" t ht (by left; decide)
  have h₃ := ne_author_key "year" t ht (by left; decide)
  have h₄ := ne_author_key "month" t ht (by left; decide)
  have h₅ := ne_author_key "day" t ht (by left; decide)
  have h₆ := ne_author_key "journal" t ht (by left; decide)
  have h₇ := ne_author_key "doi" t ht (by left; decide)
  have h₈ := ne_author_key "url" t ht (by left; decide)
  have h₉ := ne_author_key "volume" t ht (by left; decide)
  have h₁₀ := ne_author_key "page" t ht (by left; decide)
  have h₁₁ := ne_author_key "type" t ht (by left; decide)
  have h₁₂ := ne_author_key "abstract" t ht (by right; decide)
  have h₁₃ := ne_author_key "bibtex" t ht (by left; decide)
  simp [cleanBase, dictGet, h₁, h₂, h₃, h₄, h₅, h₆, h₇, h₈, h₉, h₁₀, h₁₁, h₁₂, h₁₃]

theorem author_append_cancel {a b : String} (h : "author_" ++ a = "author_" ++ b) :
    a = b := by
  have hd := congrArg String.data h
  rw [strData_append, strData_append] at hd
  exact strExt (List.append_cancel_left hd)

/-- The character `l` does not occur in a rendered natural number, hence
`author_last` never collides with an indexed author key. -/
theorem author_last_ne_indexed (m : Nat) : "author_last" ≠ "author_" ++ natToString m := by
  intro h
  have : "author_last" = "author_" ++ "last" := rfl
  rw [this] at h
  have hlast : "last" = natToString m := author_append_cancel h
  have hmem : 'l' ∈ (natToString m).data := by
    rw [← hlast]; decide
  obtain ⟨d, hd, hdc⟩ := natToString_mem_digit m 'l' hmem
  have : ∀ d, d < 10 → digitChar d ≠ 'l' := by decide
  exact this d hd hdc

/-- Lookup misses the whole author-entry block when the key differs from
every indexed author key. -/
theorem dictGet_authorEntries_ne (k : String)
    (hk : ∀ m : Nat, k ≠ "author_" ++ natToString m) :
    ∀ (i : Nat) (rs : List String), dictGet k (authorEntries i rs) = Option.none := by
  intro i rs
  induction rs generalizing i with
  | nil => rfl
  | cons r rest ih =>
    simp only [authorEntries, dictGet]
    rw [if_neg (fun hh => hk (i + 1) hh.symm)]
    exact ih (i + 1)

/-- Lookup of the `j`-th indexed author key inside the author-entry block. -/
theorem dictGet_authorEntries (rs : List String) :
    ∀ (i j : Nat) (hj : j < rs.length),
      dictGet ("author_" ++ natToString (i + j + 1)) (authorEntries i rs) =
        some (.str (rs.get ⟨j, hj⟩)) := by
  induction rs with
  | nil => intro i j hj; simp at hj
  | cons r rest ih =>
    intro i j hj
    cases j with
    | zero =>
      simp only [authorEntries, dictGet]
      simp
    | succ j' =>
      simp only [authorEntries, dictGet]
      rw [if_neg]
      · have := ih (i + 1) j' (by simpa using hj)
        rw [show i + 1 + j' + 1 = i + (j' + 1) + 1 by omega] at this
        exact this
      · intro hh
        have := natToString_injective (author_append_cancel hh)
        omega

/-- Lookup of an out-of-range indexed author key misses the block. -/
theorem dictGet_authorEntries_none (rs : List String) :
    ∀ (i m : Nat), (m ≤ i ∨ i + rs.length < m) →
      dictGet ("author_" ++ natToString m) (authorEntries i rs) = Option.none := by
  induction rs with
  | nil => intro i m _; rfl
  | cons r rest ih =>
    intro i m hm
    simp only [List.length_cons] at hm
    simp only [authorEntries, dictGet]
    rw [if_neg]
    · apply ih (i + 1)
      omega
    · intro hh
      have := natToString_injective (author_append_cancel hh)
      omega

/-- The keys of the author-entry block, in order. -/
theorem authorEntries_keys (rs : List String) :
    ∀ i : Nat, (authorEntries i rs).map Prod.fst
      = (List.range rs.length).map (fun j => "author_" ++ natToString (i + j + 1)) := by
  induction rs with
  | nil => intro i; rfl
  | cons r rest ih =>
    intro i
    simp only [authorEntries, List.map_cons, List.length_cons, List.range_succ_eq_map,
      List.map_map, ih (i + 1)]
    apply congrArg₂ List.cons
    · rw [Nat.add_zero]
    · apply List.map_congr_left
      intro j _
      simp only [Function.comp_apply, Nat.succ_eq_add_one]
      rw [show i + 1 + j + 1 = i + (j + 1) + 1 by omega]

/- ### Inversion and helper lemmas for `clean_metadata` -/

/-- The full name `given ++ " " ++ family` of a complete author record. -/
def renderedName (a : RawAuthor) : String := a.given.getD "" ++ " " ++ a.family.getD ""

theorem renderAuthor_ok (a : RawAuthor)
    (h : a.given ≠ Option.none ∧ a.family ≠ Option.none) :
    renderAuthor a = .ok (renderedName a) := by
  obtain ⟨hg, hf⟩ := h
  cases hga : a.given with
  | none => exact absurd hga hg
  | some g =>
    cases hfa : a.family with
    | none => exact absurd hfa hf
    | some f => simp [renderAuthor, hga, hfa, renderedName]

theorem renderAuthors_ok (l : List RawAuthor)
    (h : ∀ a ∈ l, a.given ≠ Option.none ∧ a.family ≠ Option.none) :
    renderAuthors l = .ok (l.map renderedName) := by
  induction l with
  | nil => rfl
  | cons a rest ih =>
    simp only [renderAuthors, renderAuthor_ok a (h a (by simp)),
      ih (fun b hb => h b (by simp [hb])), List.map_cons]

theorem renderAuthors_error (l : List RawAuthor)
    (h : ∃ a ∈ l, a.given = Option.none ∨ a.family = Option.none) :
    ∃ k, (k = "given" ∨ k = "family") ∧ renderAuthors l = .error (.keyError k) := by
  induction l with
  | nil => simp at h
  | cons a rest ih =>
    by_cases hc : a.given ≠ Option.none ∧ a.family ≠ Option.none
    · have hrest : ∃ b ∈ rest, b.given = Option.none ∨ b.family = Option.none := by
        rcases h with ⟨b, hb, hor⟩
        rcases List.mem_cons.mp hb with rfl | hb'
        · rcases hor with h1 | h1
          · exact absurd h1 hc.1
          · exact absurd h1 hc.2
        · exact ⟨b, hb', hor⟩
      obtain ⟨k, hk, hre⟩ := ih hrest
      refine ⟨k, hk, ?_⟩
      simp only [renderAuthors, renderAuthor_ok a hc, hre]
    · push_neg at hc
      cases hga : a.given with
      | none => exact ⟨"given", Or.inl rfl, by simp [renderAuthors, renderAuthor, hga]⟩
      | some g =>
        have hfa : a.family = Option.none := hc (by simp [hga])
        exact ⟨"family", Or.inr rfl, by simp [renderAuthors, renderAuthor, hga, hfa]⟩

/-- What a successful `clean_metadata` run looks like. -/
theorem clean_metadata_ok_inv (er : ExtractionResult) (md : Metadata)
    (vd : ValidationData) (cm : List (String × PyVal))
    (hm : er.metadata = some md) (hv : er.validation_data = some vd)
    (hcm : clean_metadata er = .ok cm) :
    ∃ rs, renderAuthors (md.author.getD []) = .ok rs ∧
      cm = cleanBase md vd er.bibtex rs ++ authorEntries 0 rs
        ++ (match rs.getLast? with
            | Option.none => []
            | some a => [("author_last", PyVal.str a)]) := by
  unfold clean_metadata at hcm
  rw [hm] at hcm
  simp only [] at hcm
  cases hra : renderAuthors (md.author.getD []) with
  | error e => rw [hra] at hcm; simp at hcm
  | ok rs =>
    rw [hra, hv] at hcm
    simp only [] at hcm
    refine ⟨rs, rfl, ?_⟩
    cases hl : rs.getLast? with
    | none =>
      rw [hl] at hcm
      simp only [Except.ok.injEq] at hcm
      simp [← hcm]
    | some a =>
      rw [hl] at hcm
      simp only [Except.ok.injEq] at hcm
      simp [← hcm]

/-- The success path of `clean_metadata`, as an equation. -/
theorem clean_metadata_ok_shape (er : ExtractionResult) (md : Metadata)
    (vd : ValidationData) (rs : List String)
    (hm : er.metadata = some md) (hv : er.validation_data = some vd)
    (hra : renderAuthors (md.author.getD []) = .ok rs) :
    clean_metadata er = .ok (cleanBase md vd er.bibtex rs ++ authorEntries 0 rs
      ++ (match rs.getLast? with
          | Option.none => []
          | some a => [("author_last", PyVal.str a)])) := by
  unfold clean_metadata
  rw [hm]
  simp only []
  rw [hra, hv]
  simp only []
  cases hl : rs.getLast? with
  | none => simp
  | some a => simp

/-- The `authors` field of the fixed block. -/
theorem cleanBase_dictGet_authors (md : Metadata) (vd : ValidationData)
    (bib : Option PyVal) (al : List String) :
    dictGet "authors" (cleanBase md vd bib al)
      = some (if al.isEmpty then PyVal.str "<no authors found>"
              else .str (String.intercalate ", " al)) := by
  simp [cleanBase, dictGet]

theorem cleanBase_dictGet_author_last (md : Metadata) (vd : ValidationData)
    (bib : Option PyVal) (al : List String) :
    dictGet "author_last" (cleanBase md vd bib al) = Option.none := by
  simp [cleanBase, dictGet]

/- Shape lemmas about the assembled dictionary. -/

theorem cm_keys (md : Metadata) (vd : ValidationData) (bib : Option PyVal)
    (rs : List String) (a : String) :
    ((cleanBase md vd bib rs ++ authorEntries 0 rs
        ++ [("author_last", PyVal.str a)]).map Prod.fst)
      = (cleanBase md vd bib rs).map Prod.fst
        ++ (List.range rs.length).map (fun j => "author_" ++ natToString (j + 1))
        ++ ["author_last"] := by
  simp only [List.map_append, authorEntries_keys rs 0]
  congr 2
  apply List.map_congr_left
  intro j _
  rw [Nat.zero_add]

theorem cm_dictGet_idx (md : Metadata) (vd : ValidationData) (bib : Option PyVal)
    (rs : List String) (a : String) (j : Nat) (hj : j < rs.length) :
    dictGet ("author_" ++ natToString (j + 1))
        (cleanBase md vd bib rs ++ authorEntries 0 rs ++ [("author_last", PyVal.str a)])
      = some (.str (rs.get ⟨j, hj⟩)) := by
  have hin := dictGet_authorEntries rs 0 j hj
  rw [Nat.zero_add] at hin
  rw [List.append_assoc]
  rw [dictGet_append_right _ _ _
    (cleanBase_dictGet_author md vd bib rs _ (natToString_ne_empty (j + 1)))]
  rw [dictGet_append_left _ _ _ (by rw [hin]; rfl)]
  exact hin

theorem cm_dictGet_authors (md : Metadata) (vd : ValidationData) (bib : Option PyVal)
    (rs : List String) (a : String) (hne : rs.isEmpty = false) :
    dictGet "authors"
        (cleanBase md vd bib rs ++ authorEntries 0 rs ++ [("author_last", PyVal.str a)])
      = some (.str (String.intercalate ", " rs)) := by
  rw [List.append_assoc]
  rw [dictGet_append_left _ _ _ (by rw [cleanBase_dictGet_authors]; rfl)]
  rw [cleanBase_dictGet_authors, hne]
  simp

theorem cm_dictGet_last (md : Metadata) (vd : ValidationData) (bib : Option PyVal)
    (rs : List String) (a : String) :
    dictGet "author_last"
        (cleanBase md vd bib rs ++ authorEntries 0 rs ++ [("author_last", PyVal.str a)])
      = some (PyVal.str a) := by
  rw [List.append_assoc]
  rw [dictGet_append_right _ _ _ (cleanBase_dictGet_author_last md vd bib rs)]
  rw [dictGet_append_right _ _ _
    (dictGet_authorEntries_ne _ (fun m => author_last_ne_indexed m) 0 rs)]
  simp [dictGet]

/- ### The claims about `clean_metadata` -/

/-- C1: with `N ≥ 1` complete authors, `clean_metadata` emits exactly the
keys `author_1 … author_N` (in list order) after the thirteen fixed keys and
before `author_last`; `author_i` holds `"{given} {family}"` of the `i`-th
author, `authors` joins those renderings with `", "`, and `author_last` is
the rendering of the final author. -/
theorem c1_authors_indexed (er : ExtractionResult) (md : Metadata)
    (vd : ValidationData) (l : List RawAuthor)
    (hm : er.metadata = some md) (hv : er.validation_data = some vd)
    (ha : md.author = some l) (hne : l ≠ [])
    (hcomplete : ∀ a ∈ l, a.given ≠ Option.none ∧ a.family ≠ Option.none) :
    ∃ cm, clean_metadata er = .ok cm ∧
      (cm.map Prod.fst
        = (cleanBase md vd er.bibtex (l.map renderedName)).map Prod.fst
          ++ (List.range l.length).map (fun j => "author_" ++ natToString (j + 1))
          ++ ["author_last"])
      ∧ (∀ j (hj : j < l.length),
          dictGet ("author_" ++ natToString (j + 1)) cm
            = some (.str (renderedName (l.get ⟨j, hj⟩))))
      ∧ dictGet "authors" cm = some (.str (String.intercalate ", " (l.map renderedName)))
      ∧ dictGet "author_last" cm
          = some (.str (renderedName (l.getLast hne))) := by
  have hren : renderAuthors (md.author.getD []) = .ok (l.map renderedName) := by
    rw [ha]
    exact renderAuthors_ok l hcomplete
  have hrsne : l.map renderedName ≠ [] := by
    intro h
    exact hne (List.map_eq_nil_iff.mp h)
  have hlast : (l.map renderedName).getLast? = some (renderedName (l.getLast hne)) := by
    rw [List.getLast?_eq_getLast _ hrsne, List.getLast_map]
  have hcm := clean_metadata_ok_shape er md vd (l.map renderedName) hm hv hren
  rw [hlast] at hcm
  refine ⟨_, hcm, ?_, ?_, ?_, ?_⟩
  · rw [cm_keys]
    simp
  · intro j hj
    have hj' : j < (l.map renderedName).length := by simpa using hj
    have := cm_dictGet_idx md vd er.bibtex (l.map renderedName)
      (renderedName (l.getLast hne)) j hj'
    rw [this]
    congr 1
    simp
  · exact cm_dictGet_authors md vd er.bibtex _ _
      (by cases hl : l.map renderedName with
          | nil => exact absurd hl hrsne
          | cons x xs => rfl)
  · exact cm_dictGet_last md vd er.bibtex _ _

/-- A two-author metadata block used by concrete instantiations. -/
def mdTwo : Metadata :=
  Metadata.mk (some (.str "Example Paper"))
    (some [RawAuthor.mk (some "Jane") (some "Doe"),
           RawAuthor.mk (some "John") (some "Smith")])
    (some (.int 2023)) Option.none Option.none Option.none Option.none
    Option.none Option.none Option.none Option.none Option.none

/-- A concrete extraction result with two complete authors. -/
def erTwo : ExtractionResult :=
  ExtractionResult.mk (some mdTwo) (some (ValidationData.mk Option.none)) Option.none

/-- C1 witness: the two-author fixture, instantiated at index 2. -/
theorem c1_witness :
    ∃ cm, clean_metadata erTwo = .ok cm
      ∧ dictGet "author_2" cm = some (.str "John Smith")
      ∧ dictGet "authors" cm = some (.str "Jane Doe, John Smith")
      ∧ dictGet "author_last" cm = some (.str "John Smith") := by
  obtain ⟨cm, hcm, _, hidx, hauth, hlast⟩ :=
    c1_authors_indexed erTwo mdTwo (ValidationData.mk Option.none)
      [RawAuthor.mk (some "Jane") (some "Doe"), RawAuthor.mk (some "John") (some "Smith")]
      rfl rfl rfl (by decide) (by decide)
  refine ⟨cm, hcm, ?_, ?_, ?_⟩
  · have h2 := hidx 1 (by decide)
    have hk : "author_" ++ natToString (1 + 1) = "author_2" := by decide
    rw [hk] at h2
    exact h2
  · exact hauth
  · exact hlast

/-- A metadata block with every key absent. -/
def mdEmpty : Metadata :=
  Metadata.mk Option.none Option.none Option.none Option.none Option.none Option.none
    Option.none Option.none Option.none Option.none Option.none Option.none

/-- An extraction result with no author key and everything else absent. -/
def erNoAuthors : ExtractionResult :=
  ExtractionResult.mk (some mdEmpty) (some (ValidationData.mk Option.none)) Option.none

/-- The dictionary `clean_metadata` produces for `erNoAuthors`. -/
def cmEmpty : List (String × PyVal) :=
  [("title", .str "<no title found>"), ("authors", .str "<no authors found>"),
   ("year", .str "????"), ("month", .str "??"), ("day", .str "??"),
   ("journal", .str "<no journal found>"), ("doi", .str "<no doi found>"),
   ("url", .str "<no url found>"), ("volume", .str "<no volume found>"),
   ("page", .str "<no page found>"), ("type", .str "article"),
   ("abstract", .str "<no abstract found>"), ("bibtex", .str "<no bibtex found>")]

/-- C2: with an absent or empty author list, `authors` is the sentinel
`"<no authors found>"` and no `author_N` or `author_last` key exists. -/
theorem c2_no_authors (er : ExtractionResult) (md : Metadata) (vd : ValidationData)
    (hm : er.metadata = some md) (hv : er.validation_data = some vd)
    (ha : md.author = Option.none ∨ md.author = some []) :
    ∃ cm, clean_metadata er = .ok cm ∧
      dictGet "authors" cm = some (.str "<no authors found>")
      ∧ (∀ n : Nat, dictGet ("author_" ++ natToString n) cm = Option.none)
      ∧ dictGet "author_last" cm = Option.none := by
  have hget : md.author.getD [] = [] := by rcases ha with h | h <;> simp [h]
  have hren : renderAuthors (md.author.getD []) = .ok [] := by rw [hget]; rfl
  have hcm := clean_metadata_ok_shape er md vd [] hm hv hren
  simp only [List.getLast?_nil, authorEntries, List.append_nil] at hcm
  refine ⟨_, hcm, ?_, ?_, ?_⟩
  · rw [cleanBase_dictGet_authors]
    rfl
  · intro n
    exact cleanBase_dictGet_author md vd er.bibtex [] _ (natToString_ne_empty n)
  · exact cleanBase_dictGet_author_last md vd er.bibtex []

/-- C2 witness: the no-author fixture, with `author_7` probed. -/
theorem c2_witness :
    ∃ cm, clean_metadata erNoAuthors = .ok cm ∧
      dictGet "authors" cm = some (.str "<no authors found>")
      ∧ dictGet "author_7" cm = Option.none
      ∧ dictGet "author_last" cm = Option.none := by
  obtain ⟨cm, hcm, hauth, hidx, hlast⟩ :=
    c2_no_authors erNoAuthors mdEmpty (ValidationData.mk Option.none) rfl rfl (Or.inl rfl)
  refine ⟨cm, hcm, hauth, ?_, hlast⟩
  have h7 := hidx 7
  have hk : "author_" ++ natToString 7 = "author_7" := by decide
  rw [hk] at h7
  exact h7

/-- C3: every `or`-defaulted scalar field falls back to its sentinel exactly
when the source value is absent or falsy; `journal` consults `ejournal`
before its sentinel, `abstract` reads `validation_data["summary"]`, and
`bibtex` reads the top-level extraction result. -/
theorem c3_scalar_sentinels (er : ExtractionResult) (md : Metadata)
    (vd : ValidationData) (cm : List (String × PyVal))
    (hm : er.metadata = some md) (hv : er.validation_data = some vd)
    (hcm : clean_metadata er = .ok cm) :
    ((oget md.year).truthy = false → dictGet "year" cm = some (.str "????"))
    ∧ ((oget md.month).truthy = false → dictGet "month" cm = some (.str "??"))
    ∧ ((oget md.day).truthy = false → dictGet "day" cm = some (.str "??"))
    ∧ ((oget md.journal).truthy = false →
        dictGet "journal" cm = some (pyOr (oget md.ejournal) (.str "<no journal found>")))
    ∧ ((oget md.journal).truthy = false → (oget md.ejournal).truthy = false →
        dictGet "journal" cm = some (.str "<no journal found>"))
    ∧ ((oget md.doi).truthy = false → dictGet "doi" cm = some (.str "<no doi found>"))
    ∧ ((oget md.url).truthy = false → dictGet "url" cm = some (.str "<no url found>"))
    ∧ ((oget md.volume).truthy = false →
        dictGet "volume" cm = some (.str "<no volume found>"))
    ∧ ((oget md.page).truthy = false → dictGet "page" cm = some (.str "<no page found>"))
    ∧ ((oget vd.summary).truthy = false →
        dictGet "abstract" cm = some (.str "<no abstract found>"))
    ∧ ((oget er.bibtex).truthy = false →
        dictGet "bibtex" cm = some (.str "<no bibtex found>")) := by
  obtain ⟨rs, hra, hshape⟩ := clean_metadata_ok_inv er md vd cm hm hv hcm
  subst hshape
  rw [List.append_assoc]
  refine ⟨?_, ?_, ?_, ?_, ?_, ?_, ?_, ?_, ?_, ?_, ?_⟩ <;> intro h
  all_goals try intro h2
  all_goals rw [dictGet_append_left _ _ _ (by simp [cleanBase, dictGet])]
  all_goals simp [cleanBase, dictGet, pyOr, h]
  all_goals simp [*]

/-- C3 witness: the all-absent fixture hits every sentinel. -/
theorem c3_witness :
    clean_metadata erNoAuthors = .ok cmEmpty
    ∧ dictGet "year" cmEmpty = some (.str "????")
    ∧ dictGet "month" cmEmpty = some (.str "??")
    ∧ dictGet "day" cmEmpty = some (.str "??")
    ∧ dictGet "journal" cmEmpty = some (.str "<no journal found>")
    ∧ dictGet "doi" cmEmpty = some (.str "<no doi found>")
    ∧ dictGet "url" cmEmpty = some (.str "<no url found>")
    ∧ dictGet "volume" cmEmpty = some (.str "<no volume found>")
    ∧ dictGet "page" cmEmpty = some (.str "<no page found>")
    ∧ dictGet "abstract" cmEmpty = some (.str "<no abstract found>")
    ∧ dictGet "bibtex" cmEmpty = some (.str "<no bibtex found>") := by
  have h := c3_scalar_sentinels erNoAuthors mdEmpty (ValidationData.mk Option.none)
    cmEmpty rfl rfl rfl
  exact ⟨rfl, h.1 rfl, h.2.1 rfl, h.2.2.1 rfl, h.2.2.2.2.1 rfl rfl, h.2.2.2.2.2.1 rfl,
    h.2.2.2.2.2.2.1 rfl, h.2.2.2.2.2.2.2.1 rfl, h.2.2.2.2.2.2.2.2.1 rfl,
    h.2.2.2.2.2.2.2.2.2.1 rfl, h.2.2.2.2.2.2.2.2.2.2 rfl⟩

/-- An extraction result whose title is present but the empty string. -/
def erEmptyTitle : ExtractionResult :=
  ExtractionResult.mk
    (some (Metadata.mk (some (.str "")) Option.none Option.none Option.none Option.none
      Option.none Option.none Option.none Option.none Option.none Option.none Option.none))
    (some (ValidationData.mk Option.none)) Option.none

/-- C4 counterexample: a present-but-empty (falsy) title is NOT replaced by
the sentinel — `title` uses `dict.get` with a default, not `or`. -/
theorem c4_counterexample :
    (clean_metadata erEmptyTitle).toOption.map (dictGet "title")
      = some (some (.str ""))
    ∧ (PyVal.str "").truthy = false
    ∧ PyVal.str "" ≠ PyVal.str "<no title found>" := by decide

/-- C4 (amended): `title` falls back to its sentinel exactly when the key is
absent; a present title is kept unchanged, even when falsy (empty). -/
theorem c4_title_presence (er : ExtractionResult) (md : Metadata)
    (vd : ValidationData) (cm : List (String × PyVal))
    (hm : er.metadata = some md) (hv : er.validation_data = some vd)
    (hcm : clean_metadata er = .ok cm) :
    dictGet "title" cm = some (md.title.getD (.str "<no title found>")) := by
  obtain ⟨rs, hra, hshape⟩ := clean_metadata_ok_inv er md vd cm hm hv hcm
  subst hshape
  rw [List.append_assoc]
  rw [dictGet_append_left _ _ _ (by simp [cleanBase, dictGet])]
  simp [cleanBase, dictGet]

/-- C4 witness: an absent title yields the sentinel, by the amended rule. -/
theorem c4_witness :
    clean_metadata erNoAuthors = .ok cmEmpty
    ∧ dictGet "title" cmEmpty = some (.str "<no title found>") := by
  have h := c4_title_presence erNoAuthors mdEmpty (ValidationData.mk Option.none)
    cmEmpty rfl rfl rfl
  exact ⟨rfl, h⟩

/-- An extraction result whose single author lacks the `family` key. -/
def erIncompleteAuthor : ExtractionResult :=
  ExtractionResult.mk
    (some (Metadata.mk Option.none (some [RawAuthor.mk (some "Jane") Option.none])
      Option.none Option.none Option.none Option.none Option.none Option.none
      Option.none Option.none Option.none Option.none))
    (some (ValidationData.mk Option.none)) Option.none

/-- An extraction result lacking the `validation_data` key. -/
def erNoVd : ExtractionResult :=
  ExtractionResult.mk (some mdEmpty) Option.none Option.none

/-- C10: `clean_metadata` raises `KeyError` when the extraction result lacks
`metadata` or `validation_data`, or an author record lacks `given`/`family`;
when all of those are present it succeeds.  (It is a pure function of its
input in this embedding: it never mutates the extraction result.) -/
theorem c10_clean_metadata_preconditions (er : ExtractionResult) :
    (er.metadata = Option.none → clean_metadata er = .error (.keyError "metadata"))
    ∧ (∀ md, er.metadata = some md →
        (∃ a ∈ md.author.getD [], a.given = Option.none ∨ a.family = Option.none) →
        ∃ k, (k = "given" ∨ k = "family") ∧ clean_metadata er = .error (.keyError k))
    ∧ (∀ md, er.metadata = some md →
        (∀ a ∈ md.author.getD [], a.given ≠ Option.none ∧ a.family ≠ Option.none) →
        er.validation_data = Option.none →
        clean_metadata er = .error (.keyError "validation_data"))
    ∧ (∀ md vd, er.metadata = some md → er.validation_data = some vd →
        (∀ a ∈ md.author.getD [], a.given ≠ Option.none ∧ a.family ≠ Option.none) →
        ∃ cm, clean_metadata er = .ok cm) := by
  refine ⟨?_, ?_, ?_, ?_⟩
  · intro h
    unfold clean_metadata
    rw [h]
  · intro md hm hbad
    obtain ⟨k, hk, hre⟩ := renderAuthors_error _ hbad
    refine ⟨k, hk, ?_⟩
    unfold clean_metadata
    rw [hm]
    simp only []
    rw [hre]
  · intro md hm hok hv
    unfold clean_metadata
    rw [hm]
    simp only []
    rw [renderAuthors_ok _ hok, hv]
  · intro md vd hm hv hok
    exact ⟨_, clean_metadata_ok_shape er md vd _ hm hv (renderAuthors_ok _ hok)⟩

/-- C10 witness: the four cases at concrete fixtures. -/
theorem c10_witness :
    clean_metadata (ExtractionResult.mk Option.none Option.none Option.none)
        = .error (.keyError "metadata")
    ∧ (∃ k, (k = "given" ∨ k = "family")
        ∧ clean_metadata erIncompleteAuthor = .error (.keyError k))
    ∧ clean_metadata erNoVd = .error (.keyError "validation_data")
    ∧ (∃ cm, clean_metadata erTwo = .ok cm) := by
  refine ⟨?_, ?_, ?_, ?_⟩
  · exact (c10_clean_metadata_preconditions _).1 rfl
  · exact (c10_clean_metadata_preconditions erIncompleteAuthor).2.1 _ rfl
      ⟨RawAuthor.mk (some "Jane") Option.none, by decide, by decide⟩
  · exact (c10_clean_metadata_preconditions erNoVd).2.2.1 mdEmpty rfl (by decide) rfl
  · exact (c10_clean_metadata_preconditions erTwo).2.2.2 mdTwo
      (ValidationData.mk Option.none) rfl rfl (by decide)

/- ### `str.format(**data)` -/

/-- One pass of Python's `str.format` with keyword arguments: literal text is
copied, `{{`/`}}` escape to braces, `{key}` substitutes `data[key]` (raising
`KeyError(key)` when absent), and a stray unmatched brace raises
`ValueError`.  The fuel argument (instantiated with the length of the input)
makes the recursion structural. -/
def pyFormatAux (data : List (String × String)) : Nat → List Char → Except Err (List Char)
  | _, [] => .ok []
  | 0, _ :: _ => .error .formatError
  | fuel + 1, c :: rest =>
    if c = '{' then
      match rest with
      | '{' :: rest2 => (fun t => '{' :: t) <$> pyFormatAux data fuel rest2
      | _ =>
        match rest.dropWhile (fun d => !(d = '}')) with
        | [] => .error .formatError
        | _ :: rest2 =>
          let key := String.mk (rest.takeWhile (fun d => !(d = '}')))
          match dictGet key data with
          | Option.none => .error (.keyError key)
          | some v => (fun t => v.data ++ t) <$> pyFormatAux data fuel rest2
    else if c = '}' then
      match rest with
      | '}' :: rest2 => (fun t => '}' :: t) <$> pyFormatAux data fuel rest2
      | _ => .error .formatError
    else
      (fun t => c :: t) <$> pyFormatAux data fuel rest

/-- `s.format(**data)`. -/
def pyFormat (data : List (String × String)) (s : String) : Except Err String :=
  match pyFormatAux data s.data.length s.data with
  | .error e => .error e
  | .ok cs => .ok (String.mk cs)

/- ### The filesystem model -/

/-- A filesystem: a finite map from paths to file contents, plus the set of
directories.  Only what the pipeline touches is modelled. -/
structure Fs where
  files : List (PyPath × String)
  dirs : List PyPath
deriving DecidableEq, Repr

/-- Content of the file at `p`, if one exists. -/
def Fs.read (fs : Fs) (p : PyPath) : Option String := dictGet p fs.files

/-- `p` is a directory. -/
def Fs.isDir (fs : Fs) (p : PyPath) : Bool := fs.dirs.any (fun d => d = p)

/-- `Path.exists()`: a file or directory is present at `p`. -/
def Fs.pathExists (fs : Fs) (p : PyPath) : Bool := (fs.read p).isSome || fs.isDir p

/-- `Path.rename`: move the file at `old` to `new` (content preserved). -/
def Fs.rename (fs : Fs) (old new : PyPath) : Fs :=
  ⟨fs.files.map (fun e => if e.1 = old then (new, e.2) else e), fs.dirs⟩

/-- `open(p, "w").write(c)`: create the file `p` with content `c`. -/
def Fs.write (fs : Fs) (p : PyPath) (c : String) : Fs :=
  ⟨(p, c) :: fs.files, fs.dirs⟩

/-- `p.mkdir(parents=True)`: create `p` and all its ancestors. -/
def Fs.mkdirParents (fs : Fs) (p : PyPath) : Fs :=
  ⟨fs.files,
   (List.range (p.parts.length + 1)).map (fun k => PyPath.mk p.absolute (p.parts.take k))
     ++ fs.dirs⟩

/- ### `input_validate_path` -/

/-- `input_validate_path(path, must_exist)`: make the path absolute against
the working directory `cwd` and optionally require existence (`ex` is the
read-only existence check of the surrounding filesystem). -/
def input_validate_path (cwd : PyPath) (ex : PyPath → Bool) (path : PyPath)
    (must_exist : Bool) : Except Err PyPath :=
  let p := if path.absolute then path else pathJoin cwd path
  if must_exist && !(ex p) then .error (.notFound p) else .ok p

/- ### The orchestrator `paper2note` -/

/-- The log statements the orchestrator can emit. -/
inductive LogEvent where
  | extracting (p : PyPath)
  | renaming (old new : PyPath)
  | didNotRename (p : PyPath)
  | creatingNote (p : PyPath)
  | didNotCreateNote (p : PyPath)
deriving DecidableEq, Repr

/-- Outcome of a `paper2note` run: the final filesystem, the log, and the
raised exception if the run did not complete (Python leaves earlier side
effects in place when an exception propagates). -/
structure RunResult where
  fs : Fs
  log : List LogEvent
  err : Option Err
deriving DecidableEq, Repr

/-- The rename block of the orchestrator: move the PDF when the formatted
target differs from the current path and nothing exists there; otherwise log
that no rename happened. -/
def renameStep (fs : Fs) (pdf new_pdf_path : PyPath) : Fs × List LogEvent :=
  if new_pdf_path ≠ pdf ∧ fs.pathExists new_pdf_path = false then
    (fs.rename pdf new_pdf_path,
     [LogEvent.extracting pdf, .renaming pdf new_pdf_path])
  else (fs, [LogEvent.extracting pdf, .didNotRename pdf])

/-- `x or default` on an optional pattern string (Python falsiness: an empty
string also selects the default). -/
def strOr (o : Option String) (d : String) : String :=
  match o with
  | Option.none => d
  | some s => if s = "" then d else s

/-- The `paper2note` orchestrator.  `extract` models `pdf2bib.pdf2bib` as a
pure function of the PDF's bytes; the `pdf2doi_config`/`pdf2bib_config`
loops only mutate state inside those external libraries and are therefore
not part of the filesystem model. -/
def paper2note (cwd : PyPath) (defaultTemplate : PyPath)
    (extract : String → ExtractionResult)
    (pdf0 : PyPath) (pdf_rename_pattern0 : Option String)
    (note_target_folder0 : Option PyPath) (note_template_path0 : Option PyPath)
    (note_filename_pattern0 : Option String) (fs : Fs) : RunResult :=
  match input_validate_path cwd fs.pathExists pdf0 true with
  | .error e => ⟨fs, [], some e⟩
  | .ok pdf =>
    if ¬(pySuffix pdf.name = ".pdf") then ⟨fs, [], some .invalidInput⟩
    else
      let pdf_rename_pattern := strOr pdf_rename_pattern0 (pyStem pdf.name)
      match input_validate_path cwd fs.pathExists (note_target_folder0.getD pdf.parent)
          false with
      | .error e => ⟨fs, [], some e⟩
      | .ok note_target_folder =>
        match input_validate_path cwd fs.pathExists
            (note_template_path0.getD defaultTemplate) true with
        | .error e => ⟨fs, [], some e⟩
        | .ok note_template_path =>
          let note_filename_pattern := strOr note_filename_pattern0 pdf_rename_pattern
          match clean_metadata (extract ((fs.read pdf).getD "")) with
          | .error e => ⟨fs, [.extracting pdf], some e⟩
          | .ok data =>
            let sdata := data.map (fun e => (e.1, e.2.toStr))
            match pyFormat sdata pdf_rename_pattern with
            | .error e => ⟨fs, [.extracting pdf], some e⟩
            | .ok fmt1 =>
              let step := renameStep fs pdf (pathChild pdf.parent (fmt1 ++ ".pdf"))
              match pyFormat sdata note_filename_pattern with
              | .error e => ⟨step.1, step.2, some e⟩
              | .ok fmt2 =>
                let note_path := pathChild note_target_folder (fmt2 ++ ".md")
                match step.1.read note_template_path with
                | Option.none => ⟨step.1, step.2, some (.notFound note_template_path)⟩
                | some ttext =>
                  match pyFormat sdata ttext with
                  | .error e => ⟨step.1, step.2, some e⟩
                  | .ok note_content =>
                    if step.1.pathExists note_path = false then
                      ⟨Fs.write
                        (if step.1.pathExists note_target_folder = false
                         then step.1.mkdirParents note_target_folder else step.1)
                        note_path note_content,
                       step.2 ++ [.creatingNote note_path], Option.none⟩
                    else ⟨step.1, step.2 ++ [.didNotCreateNote note_path], Option.none⟩

/- ### Helper lemmas about the filesystem and paths -/

theorem Fs.read_rename_ne (fs : Fs) (old new p : PyPath)
    (h1 : p ≠ old) (h2 : p ≠ new) :
    (fs.rename old new).read p = fs.read p := by
  obtain ⟨files, dirs⟩ := fs
  show dictGet p (files.map (fun e => if e.1 = old then (new, e.2) else e)) = dictGet p files
  induction files with
  | nil => rfl
  | cons e rest ih =>
    simp only [List.map_cons, dictGet]
    by_cases he : e.1 = old
    · rw [if_pos he]
      simp only [dictGet]
      rw [if_neg (fun hh => h2 hh.symm), if_neg (fun hh => h1 (he ▸ hh.symm))]
      exact ih
    · rw [if_neg he]
      by_cases hp : e.1 = p
      · rw [if_pos hp, if_pos hp]
      · rw [if_neg hp, if_neg hp]
        exact ih

theorem Fs.read_rename_moved (fs : Fs) (old new : PyPath)
    (hnew : fs.read new = Option.none) :
    (fs.rename old new).read new = fs.read old := by
  obtain ⟨files, dirs⟩ := fs
  simp only [Fs.rename, Fs.read] at hnew
  show dictGet new (files.map (fun e => if e.1 = old then (new, e.2) else e)) = dictGet old files
  induction files with
  | nil => rfl
  | cons e rest ih =>
    simp only [dictGet] at hnew
    by_cases hn : e.1 = new
    · rw [if_pos hn] at hnew
      simp at hnew
    · rw [if_neg hn] at hnew
      simp only [List.map_cons, dictGet]
      by_cases he : e.1 = old
      · rw [if_pos he, he]
        simp
      · rw [if_neg he]
        rw [if_neg hn]
        rw [if_neg he]
        exact ih hnew

theorem Fs.read_write_ne (fs : Fs) (p : PyPath) (c : String) (q : PyPath)
    (h : p ≠ q) : (fs.write p c).read q = fs.read q := by
  show (if p = q then some c else dictGet q fs.files) = dictGet q fs.files
  rw [if_neg h]

theorem Fs.read_write_self (fs : Fs) (p : PyPath) (c : String) :
    (fs.write p c).read p = some c := by
  show (if p = p then some c else dictGet p fs.files) = some c
  rw [if_pos rfl]

theorem Fs.read_mkdir (fs : Fs) (p q : PyPath) :
    (fs.mkdirParents p).read q = fs.read q := rfl

theorem Fs.isDir_rename (fs : Fs) (old new p : PyPath) :
    (fs.rename old new).isDir p = fs.isDir p := rfl

theorem Fs.isDir_write (fs : Fs) (p : PyPath) (c : String) (q : PyPath) :
    (fs.write p c).isDir q = fs.isDir q := rfl

theorem pathChild_parent (p : PyPath) (s : String) : (pathChild p s).parent = p := by
  simp [pathChild, PyPath.parent]

theorem pathChild_name (p : PyPath) (s : String) : (pathChild p s).name = s := by
  simp [pathChild, PyPath.name]

theorem pathChild_absolute (p : PyPath) (s : String) :
    (pathChild p s).absolute = p.absolute := rfl

theorem pathChild_inj_name {p q : PyPath} {s t : String}
    (h : pathChild p s = pathChild q t) : s = t := by
  have := congrArg PyPath.name h
  rwa [pathChild_name, pathChild_name] at this

/-- The last character of `s ++ t` is that of `t` when `t` is nonempty. -/
theorem strLast_append (s t : String) (ht : t.data ≠ []) :
    (s ++ t).data.getLast? = t.data.getLast? := by
  rw [strData_append]
  exact List.getLast?_append_of_ne_nil _ ht

theorem strLast_append_pdf (s : String) :
    (s ++ ".pdf").data.getLast? = some 'f' := by
  rw [strLast_append s ".pdf" (by decide)]
  decide

theorem strLast_append_md (s : String) :
    (s ++ ".md").data.getLast? = some 'd' := by
  rw [strLast_append s ".md" (by decide)]
  decide

/-- A name with suffix `.pdf` ends in `f`. -/
theorem pySuffix_pdf_last (nm : String) (h : pySuffix nm = ".pdf") :
    nm.data.getLast? = some 'f' := by
  unfold pySuffix at h
  by_cases hc : (nm.data.reverse.takeWhile (fun c => !(c = '.'))).length ≠ 0
      ∧ (nm.data.reverse.takeWhile (fun c => !(c = '.'))).length + 1 < nm.data.length
  · rw [if_pos hc] at h
    have hd := congrArg String.data h
    simp only [] at hd
    have htl : nm.data.reverse.takeWhile (fun c => !(c = '.')) = ['f', 'd', 'p'] := by
      have h2 := List.cons.inj hd
      have h3 := congrArg List.reverse h2.2
      simpa using h3
    obtain ⟨t, ht⟩ := List.takeWhile_prefix (l := nm.data.reverse) (fun c => !(c = '.'))
    rw [htl] at ht
    rw [← List.head?_reverse, ← ht]
    rfl
  · rw [if_neg hc] at h
    exact absurd h (by decide)

/-- Appending `.pdf` to a nonempty stem yields suffix `.pdf`. -/
theorem pySuffix_append_pdf (s : String) (hs : s ≠ "") :
    pySuffix (s ++ ".pdf") = ".pdf" := by
  unfold pySuffix
  have hdata : (s ++ ".pdf").data = s.data ++ ['.', 'p', 'd', 'f'] :=
    strData_append s ".pdf"
  rw [hdata]
  have hrev : (s.data ++ ['.', 'p', 'd', 'f']).reverse
      = 'f' :: 'd' :: 'p' :: '.' :: s.data.reverse := by
    simp
  rw [hrev]
  have htw : List.takeWhile (fun c => !(c = '.'))
        ('f' :: 'd' :: 'p' :: '.' :: s.data.reverse) = ['f', 'd', 'p'] := by
    simp [List.takeWhile]
  rw [htw]
  have hslen : 0 < s.data.length := List.length_pos.mpr (strData_ne_nil hs)
  have hcond : (['f', 'd', 'p'] : List Char).length ≠ 0
      ∧ (['f', 'd', 'p'] : List Char).length + 1 < (s.data ++ ['.', 'p', 'd', 'f']).length := by
    refine ⟨by decide, ?_⟩
    rw [List.length_append]
    simp only [List.length_cons, List.length_nil]
    omega
  rw [if_pos hcond]
  rfl

/- ### C9: the path resolver -/

/-- C9: `input_validate_path` keeps an absolute path unchanged and joins a
relative one onto the working directory; with `must_exist` it fails with a
not-found error carrying the resolved path when that path does not exist,
and otherwise it returns the resolved path.  (It only consults the
existence predicate, never mutating the filesystem.) -/
theorem c9_input_validate_path (cwd : PyPath) (ex : PyPath → Bool) (path : PyPath)
    (must_exist : Bool) :
    (path.absolute = true →
      input_validate_path cwd ex path must_exist
        = if must_exist = true ∧ ex path = false
          then .error (.notFound path) else .ok path)
    ∧ (path.absolute = false →
      input_validate_path cwd ex path must_exist
        = if must_exist = true ∧ ex (pathJoin cwd path) = false
          then .error (.notFound (pathJoin cwd path))
          else .ok (pathJoin cwd path)) := by
  constructor
  · intro habs
    cases must_exist <;> cases hex : ex path <;>
      simp [input_validate_path, habs, hex]
  · intro habs
    cases must_exist <;> cases hex : ex (pathJoin cwd path) <;>
      simp [input_validate_path, habs, hex]

/-- C9 witness: resolution of a relative path against `/home`, with and
without the existence requirement. -/
theorem c9_witness :
    input_validate_path (PyPath.mk true ["home"]) (fun _ => false)
        (PyPath.mk false ["x.pdf"]) true
      = .error (.notFound (PyPath.mk true ["home", "x.pdf"]))
    ∧ input_validate_path (PyPath.mk true ["home"]) (fun _ => false)
        (PyPath.mk false ["x.pdf"]) false
      = .ok (PyPath.mk true ["home", "x.pdf"])
    ∧ input_validate_path (PyPath.mk true ["home"]) (fun _ => true)
        (PyPath.mk true ["y.pdf"]) true
      = .ok (PyPath.mk true ["y.pdf"]) := by
  refine ⟨?_, ?_, ?_⟩
  · rw [(c9_input_validate_path (PyPath.mk true ["home"]) (fun _ => false)
      (PyPath.mk false ["x.pdf"]) true).2 rfl]
    decide
  · rw [(c9_input_validate_path (PyPath.mk true ["home"]) (fun _ => false)
      (PyPath.mk false ["x.pdf"]) false).2 rfl]
    decide
  · rw [(c9_input_validate_path (PyPath.mk true ["home"]) (fun _ => true)
      (PyPath.mk true ["y.pdf"]) true).1 rfl]
    decide

/- ### C8: non-`.pdf` inputs are rejected -/

/-- C8: after the input path has been resolved and found to exist, a suffix
that is not exactly `".pdf"` (for instance `".PDF"`) aborts the run with the
invalid-input error before extraction (the result does not depend on the
extractor) and before any filesystem mutation or log output; and when the
existence check itself fails, that not-found error is what propagates. -/
theorem c8_non_pdf_rejected (cwd defaultTemplate : PyPath)
    (extract : String → ExtractionResult) (pdf0 : PyPath) (rp0 : Option String)
    (f0 : Option PyPath) (t0 : Option PyPath) (np0 : Option String) (fs : Fs) :
    (∀ pdf, input_validate_path cwd fs.pathExists pdf0 true = .ok pdf →
      ¬(pySuffix pdf.name = ".pdf") →
      paper2note cwd defaultTemplate extract pdf0 rp0 f0 t0 np0 fs
        = ⟨fs, [], some .invalidInput⟩)
    ∧ (∀ e, input_validate_path cwd fs.pathExists pdf0 true = .error e →
      paper2note cwd defaultTemplate extract pdf0 rp0 f0 t0 np0 fs
        = ⟨fs, [], some e⟩) := by
  constructor
  · intro pdf hval hsuf
    unfold paper2note
    rw [hval]
    simp only []
    rw [if_pos hsuf]
  · intro e hval
    unfold paper2note
    rw [hval]

/-- C8 witness: an existing file named `up.PDF` is rejected as invalid
input with the filesystem untouched, for an arbitrary extractor output. -/
theorem c8_witness :
    paper2note (PyPath.mk true []) (PyPath.mk true ["tpl.md"]) (fun _ => erTwo)
        (PyPath.mk true ["up.PDF"]) Option.none Option.none Option.none Option.none
        (Fs.mk [(PyPath.mk true ["up.PDF"], "X")] [PyPath.mk true []])
      = ⟨Fs.mk [(PyPath.mk true ["up.PDF"], "X")] [PyPath.mk true []],
         [], some .invalidInput⟩ := by
  exact (c8_non_pdf_rejected (PyPath.mk true []) (PyPath.mk true ["tpl.md"])
    (fun _ => erTwo) (PyPath.mk true ["up.PDF"]) Option.none Option.none Option.none
    Option.none _).1 (PyPath.mk true ["up.PDF"]) (by decide) (by decide)

/- ### More helper lemmas for the pipeline claims -/

theorem Fs.read_rename_none (fs : Fs) (old new p : PyPath)
    (h : fs.read p = Option.none) (hne : p ≠ new) :
    (fs.rename old new).read p = Option.none := by
  obtain ⟨files, dirs⟩ := fs
  simp only [Fs.read] at h
  show dictGet p (files.map (fun e => if e.1 = old then (new, e.2) else e)) = Option.none
  induction files with
  | nil => rfl
  | cons e rest ih =>
    simp only [dictGet] at h
    by_cases hp : e.1 = p
    · rw [if_pos hp] at h
      simp at h
    · rw [if_neg hp] at h
      simp only [List.map_cons, dictGet]
      by_cases he : e.1 = old
      · rw [if_pos he]
        rw [if_neg (fun hh => hne hh.symm)]
        exact ih h
      · rw [if_neg he]
        rw [if_neg hp]
        exact ih h

theorem renameStep_read_ne (fs : Fs) (pdf np p : PyPath)
    (h1 : p ≠ pdf) (h2 : p ≠ np) :
    (renameStep fs pdf np).1.read p = fs.read p := by
  unfold renameStep
  split
  · exact Fs.read_rename_ne fs pdf np p h1 h2
  · rfl

theorem renameStep_read_none (fs : Fs) (pdf np p : PyPath)
    (h : fs.read p = Option.none) (hne : p ≠ np) :
    (renameStep fs pdf np).1.read p = Option.none := by
  unfold renameStep
  split
  · exact Fs.read_rename_none fs pdf np p h hne
  · exact h

theorem pathExists_rename_ne (fs : Fs) (old new p : PyPath)
    (h1 : p ≠ old) (h2 : p ≠ new) :
    (fs.rename old new).pathExists p = fs.pathExists p := by
  unfold Fs.pathExists
  rw [Fs.read_rename_ne fs old new p h1 h2, Fs.isDir_rename]

theorem pathExists_write_mono (fs : Fs) (p : PyPath) (c : String) (q : PyPath)
    (h : fs.pathExists q = true) : (fs.write p c).pathExists q = true := by
  unfold Fs.pathExists at h ⊢
  rw [Fs.isDir_write]
  by_cases hpq : p = q
  · subst hpq
    rw [Fs.read_write_self]
    rfl
  · rw [Fs.read_write_ne fs p c q hpq]
    exact h

theorem pathExists_mkdir_mono (fs : Fs) (p q : PyPath)
    (h : fs.pathExists q = true) : (fs.mkdirParents p).pathExists q = true := by
  unfold Fs.pathExists at h ⊢
  rw [Fs.read_mkdir]
  rcases Bool.or_eq_true_iff.mp h with h1 | h1
  · rw [h1]; rfl
  · have : (fs.mkdirParents p).isDir q = true := by
      simp only [Fs.isDir, Fs.mkdirParents, List.any_append]
      unfold Fs.isDir at h1
      rw [h1]
      simp
    rw [this]
    simp

theorem pathExists_false_read_none (fs : Fs) (p : PyPath)
    (h : fs.pathExists p = false) : fs.read p = Option.none := by
  unfold Fs.pathExists at h
  rcases hb : fs.read p with _ | v
  · rfl
  · rw [hb] at h
    simp at h

/-- Resolution with `must_exist = False` never consults the filesystem. -/
theorem input_validate_false_eq (cwd : PyPath) (ex1 ex2 : PyPath → Bool)
    (path : PyPath) (p : PyPath)
    (h : input_validate_path cwd ex1 path false = .ok p) :
    input_validate_path cwd ex2 path false = .ok p := by
  unfold input_validate_path at h ⊢
  simpa using h

/-- A successful `must_exist = True` resolution implies existence. -/
theorem input_validate_true_exists (cwd : PyPath) (ex : PyPath → Bool)
    (path : PyPath) (p : PyPath)
    (h : input_validate_path cwd ex path true = .ok p) : ex p = true := by
  unfold input_validate_path at h
  by_cases hex : ex (if path.absolute = true then path else pathJoin cwd path) = true
  · rw [if_neg (by rw [hex]; simp)] at h
    simp only [Except.ok.injEq] at h
    rw [← h]
    exact hex
  · rw [if_pos (by simp [Bool.not_eq_true] at hex; rw [hex]; rfl)] at h
    simp at h

/-- A successful `must_exist = True` resolution transfers to any filesystem
where the resolved path still exists. -/
theorem input_validate_true_mono (cwd : PyPath) (ex ex2 : PyPath → Bool)
    (path : PyPath) (p : PyPath)
    (h : input_validate_path cwd ex path true = .ok p) (h2 : ex2 p = true) :
    input_validate_path cwd ex2 path true = .ok p := by
  unfold input_validate_path at h ⊢
  by_cases hex : ex (if path.absolute = true then path else pathJoin cwd path) = true
  · rw [if_neg (by rw [hex]; simp)] at h
    simp only [Except.ok.injEq] at h
    rw [if_neg (by rw [h, h2]; simp), h]
  · rw [if_pos (by simp [Bool.not_eq_true] at hex; rw [hex]; rfl)] at h
    simp at h

/-- An absolute existing path validates to itself. -/
theorem input_validate_abs_ok (cwd : PyPath) (ex : PyPath → Bool) (p : PyPath)
    (habs : p.absolute = true) (hex : ex p = true) :
    input_validate_path cwd ex p true = .ok p := by
  unfold input_validate_path
  rw [habs]
  simp [hex]

/-- A note path (`….md`) is never the validated PDF (`….pdf`). -/
theorem notePath_ne_pdf (pdf folder : PyPath) (fmt2 : String)
    (hsuf : pySuffix pdf.name = ".pdf") :
    pathChild folder (fmt2 ++ ".md") ≠ pdf := by
  intro h
  have hn := congrArg PyPath.name h
  rw [pathChild_name] at hn
  have h1 := strLast_append_md fmt2
  rw [hn, pySuffix_pdf_last pdf.name hsuf] at h1
  simp at h1

/-- A note path (`….md`) is never a rename target (`….pdf`). -/
theorem notePath_ne_newPdf (folder parent : PyPath) (fmt1 fmt2 : String) :
    pathChild folder (fmt2 ++ ".md") ≠ pathChild parent (fmt1 ++ ".pdf") := by
  intro h
  have hnm := pathChild_inj_name h
  have h1 := strLast_append_md fmt2
  rw [hnm, strLast_append_pdf] at h1
  simp at h1

/- ### C5: a missing placeholder aborts the run before any note is written -/

/-- C5: when the note filename pattern, or the note template text, references
a placeholder key absent from the normalized metadata, the run stops with the
`KeyError` naming that key; the resulting filesystem is exactly the one left
by the (already completed) rename step, so no note file — full, partial or
truncated — is created anywhere: every path that held no file before the run
still holds none, except the rename target. -/
theorem c5_missing_placeholder (cwd defaultTemplate : PyPath)
    (extract : String → ExtractionResult) (pdf0 : PyPath) (rp0 : Option String)
    (f0 : Option PyPath) (t0 : Option PyPath) (np0 : Option String) (fs : Fs)
    (pdf folder tpath : PyPath) (data : List (String × PyVal)) (fmt1 k : String)
    (hval : input_validate_path cwd fs.pathExists pdf0 true = .ok pdf)
    (hsuf : pySuffix pdf.name = ".pdf")
    (hfol : input_validate_path cwd fs.pathExists (f0.getD pdf.parent) false = .ok folder)
    (htpl : input_validate_path cwd fs.pathExists (t0.getD defaultTemplate) true = .ok tpath)
    (hclean : clean_metadata (extract ((fs.read pdf).getD "")) = .ok data)
    (hfmt1 : pyFormat (data.map (fun e => (e.1, e.2.toStr)))
        (strOr rp0 (pyStem pdf.name)) = .ok fmt1)
    (hfail :
      pyFormat (data.map (fun e => (e.1, e.2.toStr)))
          (strOr np0 (strOr rp0 (pyStem pdf.name))) = .error (.keyError k)
      ∨ (∃ fmt2 ttext,
          pyFormat (data.map (fun e => (e.1, e.2.toStr)))
              (strOr np0 (strOr rp0 (pyStem pdf.name))) = .ok fmt2
          ∧ (renameStep fs pdf (pathChild pdf.parent (fmt1 ++ ".pdf"))).1.read tpath
              = some ttext
          ∧ pyFormat (data.map (fun e => (e.1, e.2.toStr))) ttext
              = .error (.keyError k))) :
    paper2note cwd defaultTemplate extract pdf0 rp0 f0 t0 np0 fs
      = ⟨(renameStep fs pdf (pathChild pdf.parent (fmt1 ++ ".pdf"))).1,
         (renameStep fs pdf (pathChild pdf.parent (fmt1 ++ ".pdf"))).2,
         some (.keyError k)⟩
    ∧ (∀ p : PyPath, fs.read p = Option.none →
        p ≠ pathChild pdf.parent (fmt1 ++ ".pdf") →
        (paper2note cwd defaultTemplate extract pdf0 rp0 f0 t0 np0 fs).fs.read p
          = Option.none) := by
  have hmain : paper2note cwd defaultTemplate extract pdf0 rp0 f0 t0 np0 fs
      = ⟨(renameStep fs pdf (pathChild pdf.parent (fmt1 ++ ".pdf"))).1,
         (renameStep fs pdf (pathChild pdf.parent (fmt1 ++ ".pdf"))).2,
         some (.keyError k)⟩ := by
    unfold paper2note
    rw [hval]
    simp only []
    rw [if_neg (fun hh => hh hsuf)]
    rw [hfol]
    simp only []
    rw [htpl]
    simp only []
    rw [hclean]
    simp only []
    rw [hfmt1]
    simp only []
    rcases hfail with herr | ⟨fmt2, ttext, hfmt2, hread, herr⟩
    · rw [herr]
    · rw [hfmt2]
      simp only []
      rw [hread]
      simp only []
      rw [herr]
  refine ⟨hmain, ?_⟩
  intro p hp hne
  rw [hmain]
  exact renameStep_read_none fs pdf _ p hp hne

/-- C5 witness: a note filename pattern `{nonexistent_field}` aborts with
`KeyError "nonexistent_field"` and creates no note file. -/
theorem c5_witness :
    paper2note (PyPath.mk true []) (PyPath.mk true ["tpl.md"]) (fun _ => erTwo)
        (PyPath.mk true ["a", "old.pdf"]) (some "{title}") Option.none Option.none
        (some "{nonexistent_field}")
        (Fs.mk [(PyPath.mk true ["a", "old.pdf"], "B"),
                (PyPath.mk true ["tpl.md"], "T")]
               [PyPath.mk true [], PyPath.mk true ["a"]])
      = ⟨(renameStep
            (Fs.mk [(PyPath.mk true ["a", "old.pdf"], "B"),
                    (PyPath.mk true ["tpl.md"], "T")]
                   [PyPath.mk true [], PyPath.mk true ["a"]])
            (PyPath.mk true ["a", "old.pdf"])
            (pathChild (PyPath.mk true ["a", "old.pdf"]).parent
              ("Example Paper" ++ ".pdf"))).1,
         (renameStep
            (Fs.mk [(PyPath.mk true ["a", "old.pdf"], "B"),
                    (PyPath.mk true ["tpl.md"], "T")]
                   [PyPath.mk true [], PyPath.mk true ["a"]])
            (PyPath.mk true ["a", "old.pdf"])
            (pathChild (PyPath.mk true ["a", "old.pdf"]).parent
              ("Example Paper" ++ ".pdf"))).2,
         some (.keyError "nonexistent_field")⟩
    ∧ (paper2note (PyPath.mk true []) (PyPath.mk true ["tpl.md"]) (fun _ => erTwo)
        (PyPath.mk true ["a", "old.pdf"]) (some "{title}") Option.none Option.none
        (some "{nonexistent_field}")
        (Fs.mk [(PyPath.mk true ["a", "old.pdf"], "B"),
                (PyPath.mk true ["tpl.md"], "T")]
               [PyPath.mk true [], PyPath.mk true ["a"]])).fs.read
        (PyPath.mk true ["a", "nonexistent.md"]) = Option.none := by
  have h := c5_missing_placeholder (PyPath.mk true []) (PyPath.mk true ["tpl.md"])
    (fun _ => erTwo) (PyPath.mk true ["a", "old.pdf"]) (some "{title}") Option.none
    Option.none (some "{nonexistent_field}")
    (Fs.mk [(PyPath.mk true ["a", "old.pdf"], "B"), (PyPath.mk true ["tpl.md"], "T")]
           [PyPath.mk true [], PyPath.mk true ["a"]])
    (PyPath.mk true ["a", "old.pdf"]) (PyPath.mk true ["a"]) (PyPath.mk true ["tpl.md"])
    _ "Example Paper" "nonexistent_field"
    (by decide) (by decide) (by decide) (by decide) rfl (by decide)
    (Or.inl (by decide))
  exact ⟨h.1, h.2 (PyPath.mk true ["a", "nonexistent.md"]) (by decide) (by decide)⟩

/- ### C6: an existing note file is never overwritten -/

/-- C6: when the computed note path already exists, the run logs the
"did not create" warning, finishes without error, and leaves the existing
file byte-for-byte unchanged (the filesystem after the run is exactly the
rename-step filesystem, and the rename never touches a `.md` path). -/
theorem c6_note_exists_skip (cwd defaultTemplate : PyPath)
    (extract : String → ExtractionResult) (pdf0 : PyPath) (rp0 : Option String)
    (f0 : Option PyPath) (t0 : Option PyPath) (np0 : Option String) (fs : Fs)
    (pdf folder tpath : PyPath) (data : List (String × PyVal))
    (fmt1 fmt2 ttext content : String)
    (hval : input_validate_path cwd fs.pathExists pdf0 true = .ok pdf)
    (hsuf : pySuffix pdf.name = ".pdf")
    (hfol : input_validate_path cwd fs.pathExists (f0.getD pdf.parent) false = .ok folder)
    (htpl : input_validate_path cwd fs.pathExists (t0.getD defaultTemplate) true = .ok tpath)
    (hclean : clean_metadata (extract ((fs.read pdf).getD "")) = .ok data)
    (hfmt1 : pyFormat (data.map (fun e => (e.1, e.2.toStr)))
        (strOr rp0 (pyStem pdf.name)) = .ok fmt1)
    (hfmt2 : pyFormat (data.map (fun e => (e.1, e.2.toStr)))
        (strOr np0 (strOr rp0 (pyStem pdf.name))) = .ok fmt2)
    (hread : (renameStep fs pdf (pathChild pdf.parent (fmt1 ++ ".pdf"))).1.read tpath
        = some ttext)
    (hfmt3 : pyFormat (data.map (fun e => (e.1, e.2.toStr))) ttext = .ok content)
    (hexists : (renameStep fs pdf (pathChild pdf.parent (fmt1 ++ ".pdf"))).1.pathExists
        (pathChild folder (fmt2 ++ ".md")) = true) :
    paper2note cwd defaultTemplate extract pdf0 rp0 f0 t0 np0 fs
      = ⟨(renameStep fs pdf (pathChild pdf.parent (fmt1 ++ ".pdf"))).1,
         (renameStep fs pdf (pathChild pdf.parent (fmt1 ++ ".pdf"))).2
           ++ [.didNotCreateNote (pathChild folder (fmt2 ++ ".md"))],
         Option.none⟩
    ∧ (paper2note cwd defaultTemplate extract pdf0 rp0 f0 t0 np0 fs).fs.read
        (pathChild folder (fmt2 ++ ".md"))
      = fs.read (pathChild folder (fmt2 ++ ".md")) := by
  have hmain : paper2note cwd defaultTemplate extract pdf0 rp0 f0 t0 np0 fs
      = ⟨(renameStep fs pdf (pathChild pdf.parent (fmt1 ++ ".pdf"))).1,
         (renameStep fs pdf (pathChild pdf.parent (fmt1 ++ ".pdf"))).2
           ++ [.didNotCreateNote (pathChild folder (fmt2 ++ ".md"))],
         Option.none⟩ := by
    unfold paper2note
    rw [hval]
    simp only []
    rw [if_neg (fun hh => hh hsuf)]
    rw [hfol]
    simp only []
    rw [htpl]
    simp only []
    rw [hclean]
    simp only []
    rw [hfmt1]
    simp only []
    rw [hfmt2]
    simp only []
    rw [hread]
    simp only []
    rw [hfmt3]
    simp only []
    rw [hexists]
    rw [if_neg (by simp)]
  refine ⟨hmain, ?_⟩
  rw [hmain]
  exact renameStep_read_ne fs pdf _ _
    (notePath_ne_pdf pdf folder fmt2 hsuf)
    (notePath_ne_newPdf folder pdf.parent fmt1 fmt2)

/-- C6 witness: a pre-existing note `Example Paper.md` with content `"OLD"`
is kept unchanged and the run succeeds. -/
theorem c6_witness :
    paper2note (PyPath.mk true []) (PyPath.mk true ["tpl.md"]) (fun _ => erTwo)
        (PyPath.mk true ["a", "old.pdf"]) (some "{title}") Option.none Option.none
        Option.none
        (Fs.mk [(PyPath.mk true ["a", "old.pdf"], "B"),
                (PyPath.mk true ["tpl.md"], "T: {title}"),
                (PyPath.mk true ["a", "Example Paper.md"], "OLD")]
               [PyPath.mk true [], PyPath.mk true ["a"]])
      = ⟨(renameStep
            (Fs.mk [(PyPath.mk true ["a", "old.pdf"], "B"),
                    (PyPath.mk true ["tpl.md"], "T: {title}"),
                    (PyPath.mk true ["a", "Example Paper.md"], "OLD")]
                   [PyPath.mk true [], PyPath.mk true ["a"]])
            (PyPath.mk true ["a", "old.pdf"])
            (pathChild (PyPath.mk true ["a", "old.pdf"]).parent
              ("Example Paper" ++ ".pdf"))).1,
         (renameStep
            (Fs.mk [(PyPath.mk true ["a", "old.pdf"], "B"),
                    (PyPath.mk true ["tpl.md"], "T: {title}"),
                    (PyPath.mk true ["a", "Example Paper.md"], "OLD")]
                   [PyPath.mk true [], PyPath.mk true ["a"]])
            (PyPath.mk true ["a", "old.pdf"])
            (pathChild (PyPath.mk true ["a", "old.pdf"]).parent
              ("Example Paper" ++ ".pdf"))).2
           ++ [.didNotCreateNote (pathChild (PyPath.mk true ["a"])
                ("Example Paper" ++ ".md"))],
         Option.none⟩
    ∧ (paper2note (PyPath.mk true []) (PyPath.mk true ["tpl.md"]) (fun _ => erTwo)
        (PyPath.mk true ["a", "old.pdf"]) (some "{title}") Option.none Option.none
        Option.none
        (Fs.mk [(PyPath.mk true ["a", "old.pdf"], "B"),
                (PyPath.mk true ["tpl.md"], "T: {title}"),
                (PyPath.mk true ["a", "Example Paper.md"], "OLD")]
               [PyPath.mk true [], PyPath.mk true ["a"]])).fs.read
        (pathChild (PyPath.mk true ["a"]) ("Example Paper" ++ ".md"))
      = some "OLD" := by
  have h := c6_note_exists_skip (PyPath.mk true []) (PyPath.mk true ["tpl.md"])
    (fun _ => erTwo) (PyPath.mk true ["a", "old.pdf"]) (some "{title}") Option.none
    Option.none Option.none
    (Fs.mk [(PyPath.mk true ["a", "old.pdf"], "B"),
            (PyPath.mk true ["tpl.md"], "T: {title}"),
            (PyPath.mk true ["a", "Example Paper.md"], "OLD")]
           [PyPath.mk true [], PyPath.mk true ["a"]])
    (PyPath.mk true ["a", "old.pdf"]) (PyPath.mk true ["a"]) (PyPath.mk true ["tpl.md"])
    _ "Example Paper" "Example Paper" "T: {title}" "T: Example Paper"
    (by decide) (by decide) (by decide) (by decide) rfl (by decide) (by decide)
    (by decide) (by decide) (by decide)
  exact ⟨h.1, h.2.trans (by decide)⟩

/- ### C7: running the pipeline twice is idempotent -/

theorem strOr_some_ne (s d : String) (h : s ≠ "") : strOr (some s) d = s := by
  simp [strOr, h]

theorem pathExists_of_read (fs : Fs) (p : PyPath) (c : String)
    (h : fs.read p = some c) : fs.pathExists p = true := by
  unfold Fs.pathExists
  rw [h]
  rfl

/-- C7: a first run that renames the PDF and creates the note, followed by a
second run on the renamed PDF with the same patterns, changes nothing: the
second run skips the rename (the formatted target equals the current path),
skips the note write (the note already exists), completes without error and
returns the first run's filesystem unchanged. -/
theorem c7_idempotent (cwd defaultTemplate : PyPath)
    (extract : String → ExtractionResult) (pdf0 : PyPath) (rp0 : Option String)
    (f0 : Option PyPath) (t0 : Option PyPath) (np0 : Option String) (fs : Fs)
    (pdf folder tpath : PyPath) (data : List (String × PyVal))
    (rp bytes fmt1 fmt2 ttext content : String)
    (hval : input_validate_path cwd fs.pathExists pdf0 true = .ok pdf)
    (hsuf : pySuffix pdf.name = ".pdf")
    (habs : pdf.absolute = true)
    (hrp0 : rp0 = some rp) (hrpne : rp ≠ "")
    (hfol : input_validate_path cwd fs.pathExists (f0.getD pdf.parent) false = .ok folder)
    (htpl : input_validate_path cwd fs.pathExists (t0.getD defaultTemplate) true = .ok tpath)
    (htppdf : tpath ≠ pdf)
    (hbytes : fs.read pdf = some bytes)
    (hclean : clean_metadata (extract bytes) = .ok data)
    (hfmt1 : pyFormat (data.map (fun e => (e.1, e.2.toStr))) rp = .ok fmt1)
    (hfmt1ne : fmt1 ≠ "")
    (hren : pathChild pdf.parent (fmt1 ++ ".pdf") ≠ pdf)
    (hnew : fs.pathExists (pathChild pdf.parent (fmt1 ++ ".pdf")) = false)
    (hfmt2 : pyFormat (data.map (fun e => (e.1, e.2.toStr))) (strOr np0 rp) = .ok fmt2)
    (httext : fs.read tpath = some ttext)
    (hfmt3 : pyFormat (data.map (fun e => (e.1, e.2.toStr))) ttext = .ok content)
    (hnote : fs.pathExists (pathChild folder (fmt2 ++ ".md")) = false) :
    (paper2note cwd defaultTemplate extract pdf0 rp0 f0 t0 np0 fs).err = Option.none
    ∧ paper2note cwd defaultTemplate extract (pathChild pdf.parent (fmt1 ++ ".pdf"))
        rp0 f0 t0 np0 (paper2note cwd defaultTemplate extract pdf0 rp0 f0 t0 np0 fs).fs
      = ⟨(paper2note cwd defaultTemplate extract pdf0 rp0 f0 t0 np0 fs).fs,
         [.extracting (pathChild pdf.parent (fmt1 ++ ".pdf")),
          .didNotRename (pathChild pdf.parent (fmt1 ++ ".pdf")),
          .didNotCreateNote (pathChild folder (fmt2 ++ ".md"))],
         Option.none⟩ := by
  set newp := pathChild pdf.parent (fmt1 ++ ".pdf") with hnewp
  set notePath := pathChild folder (fmt2 ++ ".md") with hnpdef
  set fs1 := fs.rename pdf newp with hfs1
  set r1fs := Fs.write
    (if fs1.pathExists folder = false then fs1.mkdirParents folder else fs1)
    notePath content with hr1def
  -- facts used on both runs
  have hnewread : fs.read newp = Option.none := pathExists_false_read_none fs newp hnew
  have htp_ne_newp : tpath ≠ newp := by
    intro hh
    rw [hh, hnewread] at httext
    exact Option.noConfusion httext
  have hnp_ne_pdf : notePath ≠ pdf := notePath_ne_pdf pdf folder fmt2 hsuf
  have hnp_ne_newp : notePath ≠ newp := notePath_ne_newPdf folder pdf.parent fmt1 fmt2
  have hnp_ne_tp : notePath ≠ tpath := by
    intro hh
    have := pathExists_false_read_none fs notePath hnote
    rw [hh, httext] at this
    exact Option.noConfusion this
  have hfs1_tpath : fs1.read tpath = some ttext := by
    rw [hfs1, Fs.read_rename_ne fs pdf newp tpath htppdf htp_ne_newp]
    exact httext
  have hstep1 : renameStep fs pdf newp
      = (fs1, [LogEvent.extracting pdf, .renaming pdf newp]) := by
    unfold renameStep
    rw [if_pos ⟨hren, hnew⟩]
  have hso : strOr rp0 (pyStem pdf.name) = rp := by
    rw [hrp0]
    exact strOr_some_ne rp _ hrpne
  -- the first run
  have hR1 : paper2note cwd defaultTemplate extract pdf0 rp0 f0 t0 np0 fs
      = ⟨r1fs,
         [LogEvent.extracting pdf, .renaming pdf newp] ++ [.creatingNote notePath],
         Option.none⟩ := by
    unfold paper2note
    rw [hval]
    simp only []
    rw [if_neg (fun hh => hh hsuf)]
    rw [hfol]
    simp only []
    rw [htpl]
    simp only []
    rw [hso]
    rw [hbytes]
    simp only [Option.getD_some]
    rw [hclean]
    simp only []
    rw [hfmt1]
    simp only []
    rw [← hnewp, hstep1]
    simp only []
    rw [hfmt2]
    simp only []
    rw [hfs1_tpath]
    simp only []
    rw [hfmt3]
    simp only []
    rw [← hnpdef]
    rw [show fs1.pathExists notePath = false from by
      rw [hfs1, pathExists_rename_ne fs pdf newp notePath hnp_ne_pdf hnp_ne_newp]
      exact hnote]
    rw [if_pos rfl, ← hr1def]
  -- facts about the filesystem after the first run
  have hmid : ∀ q : PyPath,
      (if fs1.pathExists folder = false then fs1.mkdirParents folder else fs1).read q
        = fs1.read q := by
    intro q
    split <;> rfl
  have hr1_newp : r1fs.read newp = some bytes := by
    rw [hr1def, Fs.read_write_ne _ _ _ _ hnp_ne_newp, hmid, hfs1,
      Fs.read_rename_moved fs pdf newp hnewread]
    exact hbytes
  have hr1_tpath : r1fs.read tpath = some ttext := by
    rw [hr1def, Fs.read_write_ne _ _ _ _ hnp_ne_tp, hmid]
    exact hfs1_tpath
  have hr1_note : r1fs.read notePath = some content := by
    rw [hr1def]
    exact Fs.read_write_self _ _ _
  -- pieces for the second run
  have habs2 : newp.absolute = true := by
    rw [hnewp, pathChild_absolute]
    exact habs
  have hval2 : input_validate_path cwd r1fs.pathExists newp true = .ok newp :=
    input_validate_abs_ok cwd _ newp habs2 (pathExists_of_read r1fs newp bytes hr1_newp)
  have hsuf2 : pySuffix newp.name = ".pdf" := by
    rw [hnewp, pathChild_name]
    exact pySuffix_append_pdf fmt1 hfmt1ne
  have hpar2 : newp.parent = pdf.parent := by
    rw [hnewp]
    exact pathChild_parent pdf.parent (fmt1 ++ ".pdf")
  have hso2 : strOr rp0 (pyStem newp.name) = rp := by
    rw [hrp0]
    exact strOr_some_ne rp _ hrpne
  have hfol2 : input_validate_path cwd r1fs.pathExists (f0.getD newp.parent) false
      = .ok folder := by
    rw [hpar2]
    exact input_validate_false_eq cwd fs.pathExists r1fs.pathExists _ folder hfol
  have htpl2 : input_validate_path cwd r1fs.pathExists (t0.getD defaultTemplate) true
      = .ok tpath :=
    input_validate_true_mono cwd fs.pathExists r1fs.pathExists _ tpath htpl
      (pathExists_of_read r1fs tpath ttext hr1_tpath)
  have hstep2 : renameStep r1fs newp (pathChild newp.parent (fmt1 ++ ".pdf"))
      = (r1fs, [LogEvent.extracting newp, .didNotRename newp]) := by
    unfold renameStep
    rw [if_neg]
    intro hcontra
    apply hcontra.1
    rw [hpar2, ← hnewp]
  -- the second run
  refine ⟨by rw [hR1], ?_⟩
  rw [hR1]
  simp only []
  unfold paper2note
  rw [hval2]
  simp only []
  rw [if_neg (fun hh => hh hsuf2)]
  rw [hfol2]
  simp only []
  rw [htpl2]
  simp only []
  rw [hso2]
  rw [hr1_newp]
  simp only [Option.getD_some]
  rw [hclean]
  simp only []
  rw [hfmt1]
  simp only []
  rw [hstep2]
  simp only []
  rw [hfmt2]
  simp only []
  rw [hr1_tpath]
  simp only []
  rw [hfmt3]
  simp only []
  rw [← hnpdef]
  rw [show r1fs.pathExists notePath = true from
    pathExists_of_read r1fs notePath content hr1_note]
  rw [if_neg (by simp)]
  rfl

/-- C7 witness: the concrete two-author scenario run twice. -/
theorem c7_witness :
    (paper2note (PyPath.mk true []) (PyPath.mk true ["tpl.md"]) (fun _ => erTwo)
        (PyPath.mk true ["a", "old.pdf"]) (some "{title}") Option.none Option.none
        Option.none
        (Fs.mk [(PyPath.mk true ["a", "old.pdf"], "B"),
                (PyPath.mk true ["tpl.md"], "T: {title}")]
               [PyPath.mk true [], PyPath.mk true ["a"]])).err = Option.none
    ∧ paper2note (PyPath.mk true []) (PyPath.mk true ["tpl.md"]) (fun _ => erTwo)
        (pathChild (PyPath.mk true ["a", "old.pdf"]).parent ("Example Paper" ++ ".pdf"))
        (some "{title}") Option.none Option.none Option.none
        (paper2note (PyPath.mk true []) (PyPath.mk true ["tpl.md"]) (fun _ => erTwo)
          (PyPath.mk true ["a", "old.pdf"]) (some "{title}") Option.none Option.none
          Option.none
          (Fs.mk [(PyPath.mk true ["a", "old.pdf"], "B"),
                  (PyPath.mk true ["tpl.md"], "T: {title}")]
                 [PyPath.mk true [], PyPath.mk true ["a"]])).fs
      = ⟨(paper2note (PyPath.mk true []) (PyPath.mk true ["tpl.md"]) (fun _ => erTwo)
            (PyPath.mk true ["a", "old.pdf"]) (some "{title}") Option.none Option.none
            Option.none
            (Fs.mk [(PyPath.mk true ["a", "old.pdf"], "B"),
                    (PyPath.mk true ["tpl.md"], "T: {title}")]
                   [PyPath.mk true [], PyPath.mk true ["a"]])).fs,
         [.extracting (pathChild (PyPath.mk true ["a", "old.pdf"]).parent
            ("Example Paper" ++ ".pdf")),
          .didNotRename (pathChild (PyPath.mk true ["a", "old.pdf"]).parent
            ("Example Paper" ++ ".pdf")),
          .didNotCreateNote (pathChild (PyPath.mk true ["a"]) ("Example Paper" ++ ".md"))],
         Option.none⟩ :=
  c7_idempotent (PyPath.mk true []) (PyPath.mk true ["tpl.md"]) (fun _ => erTwo)
    (PyPath.mk true ["a", "old.pdf"]) (some "{title}") Option.none Option.none
    Option.none
    (Fs.mk [(PyPath.mk true ["a", "old.pdf"], "B"),
            (PyPath.mk true ["tpl.md"], "T: {title}")]
           [PyPath.mk true [], PyPath.mk true ["a"]])
    (PyPath.mk true ["a", "old.pdf"]) (PyPath.mk true ["a"]) (PyPath.mk true ["tpl.md"])
    _ "{title}" "B" "Example Paper" "Example Paper" "T: {title}" "T: Example Paper"
    (by decide) (by decide) rfl rfl (by decide) (by decide) (by decide) (by decide)
    (by decide) rfl (by decide) (by decide) (by decide) (by decide) (by decide)
    (by decide) (by decide) (by decide)

end Paper2Note
